import Mathlib

/-!
Shallow embedding of the GameEngine core (GameEngine/Engine.cpp, GameEngine/Level.cpp)
and proofs of the specified properties of its collision pass, time-listener firing,
main loop, event dispatch, sprite removal, and time-event emission.

Machine integers (`int`, `Uint32`) are modelled as `Int` / `Nat`; C++ `%` and `/` on
`int` are `Int.tmod` / `Int.tdiv`; `double` arithmetic is modelled exactly: values
that are exactly representable are carried as rationals, and the one computation
whose intermediate roundings matter — the time-listener period of Engine.cpp:156 —
is modelled bit-faithfully by IEEE-754 binary64 round-to-nearest-even (`rne53`).
-/

namespace GameEngine

/-- A sprite of the GameEngine variant: an identity (the C++ object address,
which `sprite != other_sprite` compares) plus its `SDL_Rect* boundary`
`{x, y, w, h}`. -/
structure Sprite where
  id : Nat
  x : Int
  y : Int
  w : Int
  h : Int
deriving DecidableEq

/-- Modelled from the spec: `Sprite::Contains(Sprite*)` of the GameEngine variant is
declared in the headers but its implementation file is not among the sources.
Spec §2 and §4.4: the test is axis-aligned boundary-rectangle overlap only
("Containment is boundary-rectangle overlap only — no sub-pixel or
transparency-aware testing"). -/
def Contains (a b : Sprite) : Bool :=
  decide (a.x < b.x + b.w) && decide (b.x < a.x + a.w) &&
    decide (a.y < b.y + b.h) && decide (b.y < a.y + a.h)

/-- Embedding of `Level::GetSprites` (Level.cpp:31-33): `return sprites;` — the `std::vector` is
returned by value, so the caller receives a copy fixed at the moment of the call.
In the embedding the returned list is therefore the level content at the call,
never re-read afterwards. -/
def GetSprites (sprites : List Sprite) : List Sprite := sprites

/-- Embedding of `Engine::DetectCollision` (Engine.cpp:109-119) with a registered
(non-null) collision listener that does not mutate the level: the returned list is
the sequence of `current_collision_listener(sprite, other_sprite)` invocations, in
order. Both loops range over `current_level->GetSprites()`. -/
def DetectCollision (lvl : List Sprite) : List (Sprite × Sprite) :=
  (GetSprites lvl).flatMap fun sprite =>
    ((GetSprites lvl).filter fun other => decide (sprite ≠ other) && Contains sprite other).map
      fun other => (sprite, other)

/-- The C++ `round` function (rounds half away from zero) applied to an exactly represented
rational value. -/
def cppRound (q : ℚ) : Int := if 0 ≤ q then ⌊q + 1 / 2⌋ else ⌈q - 1 / 2⌉

/-- The idealized (exact-rational) reading of the spec formula `round((f/1000)*d)`
(spec §4.3, §8): C++ `round` applied to the exact value of `(fps/1000)·delay`.
The program itself evaluates `(fps / 1000.0) * entry.first` in IEEE double
(Engine.cpp:156) and can differ from this by one — see `timeRhsF` for the
bit-faithful value. `timeRhs` is kept as the modulus of the idealized model used
for the registration-replacement development, whose content does not depend on
the modulus arithmetic. -/
def timeRhs (fps delay : Int) : Int := cppRound ((fps : ℚ) / 1000 * delay)

/-- Executable form of `timeRhs` over plain integer division (see `timeRhs_eval`). -/
def timeRhsInt (fps delay : Int) : Int :=
  if 0 ≤ fps * delay then (2 * (fps * delay) + 1000) / 2000
  else -((2 * -(fps * delay) + 1000) / 2000)

/-- The firing test of one `Engine::HandleTime` entry (Engine.cpp:156-164) under
the idealized modulus `timeRhs`: when `rhs > 0` the listener fires iff
`frame_counter % rhs == 0` (C++ `%` on `int` is `Int.tmod`); otherwise it fires
unconditionally. The bit-faithful variant is `timeListenerFiresF`. -/
def timeListenerFires (fps frame_counter delay : Int) : Bool :=
  let rhs := timeRhs fps delay
  if 0 < rhs then Int.tmod frame_counter rhs == 0 else true

/-- Model of `Engine::HandleTime` (Engine.cpp:152-166) under the idealized modulus:
iterates over the `time_listeners` map entries and returns, in iteration order,
the entries whose listener is invoked for a time event carrying `fps`
(`user.data1`) and `frame_counter` (`user.data2`). Listeners are identified by
`Nat` tokens. Used for the registration-replacement property; the bit-faithful
variant is `HandleTimeF`. -/
def HandleTime (listeners : List (Int × Nat)) (fps frame_counter : Int) : List (Int × Nat) :=
  listeners.filter fun entry => timeListenerFires fps frame_counter entry.1

/-- One halving pass of binary64 normalization: while `2^53 * B ≤ A`, double `B`
and raise the exponent, so that `A / B` drops below `2^53` while
`a / b = (A / B) * 2^e` stays invariant. The fuel (8192 at every use) bounds the
halvings by the bit length of the operands, which stay far below it for every
C++ `int` input. -/
def shrink53 : Nat → Nat → Nat → Int → Nat × Nat × Int
  | 0, A, B, e => (A, B, e)
  | fuel + 1, A, B, e =>
      if 9007199254740992 * B ≤ A then shrink53 fuel A (2 * B) (e + 1) else (A, B, e)

/-- One doubling pass of binary64 normalization: while `A < 2^52 * B`, double `A`
and lower the exponent, so that `2^52 ≤ A / B` while `a / b = (A / B) * 2^e`
stays invariant. -/
def grow53 : Nat → Nat → Nat → Int → Nat × Nat × Int
  | 0, A, B, e => (A, B, e)
  | fuel + 1, A, B, e =>
      if A < 4503599627370496 * B then grow53 fuel (2 * A) B (e - 1) else (A, B, e)

/-- IEEE-754 binary64 round-to-nearest-even of the positive rational `a / b`
(`a, b > 0`, normal range): normalizes to `2^52 ≤ A / B < 2^53` with
`a / b = (A / B) * 2^e`, rounds the 53-bit significand to nearest with ties to
even, and returns `(m, e)` with exact value `m * 2^e`. This is the rounding every
double division and multiplication performs. -/
def rne53 (a b : Nat) : Nat × Int :=
  let s := shrink53 8192 a b 0
  let g := grow53 8192 s.1 s.2.1 s.2.2
  let q := g.1 / g.2.1
  let r := g.1 % g.2.1
  let m := if g.2.1 < 2 * r then q + 1
           else if 2 * r < g.2.1 then q
           else if q % 2 = 0 then q else q + 1
  (m, g.2.2)

/-- The magnitude of `round((fa / 1000.0) * da)` exactly as the program computes
it (Engine.cpp:156) for `fa = |fps|`, `da = |delay|`: `fa` converts to double
exactly, the division by `1000.0` rounds to nearest even (`rne53 fa 1000`), the
multiplication by the exactly converted `da` rounds to nearest even again, and C
`round` (half away from zero; for a positive value, floor of the value plus one
half) maps the result to an integer. All three IEEE operations are symmetric in
sign, so the signed value is this magnitude with the sign of `fps * delay`. -/
def timeRhsMagF (fa da : Nat) : Nat :=
  if fa = 0 then 0
  else if da = 0 then 0
  else
    let x1 := rne53 fa 1000
    let p : Nat × Nat :=
      if 0 ≤ x1.2 then (x1.1 * da * 2 ^ x1.2.toNat, 1) else (x1.1 * da, 2 ^ (-x1.2).toNat)
    let x2 := rne53 p.1 p.2
    if 0 ≤ x2.2 then x2.1 * 2 ^ x2.2.toNat
    else (2 * x2.1 + 2 ^ (-x2.2).toNat) / 2 ^ ((-x2.2).toNat + 1)

/-- The per-delay frame period as the program computes it (Engine.cpp:156):
`int rhs = (int)(round(((fps / 1000.0 ) * entry.first)));` with bit-faithful
IEEE-754 binary64 arithmetic. The value of the final `(int)` cast equals this
integer whenever it lies in the `int` range. -/
def timeRhsF (fps delay : Int) : Int :=
  if fps * delay < 0 then -(timeRhsMagF fps.natAbs delay.natAbs : Int)
  else (timeRhsMagF fps.natAbs delay.natAbs : Int)

/-- The firing test of one `Engine::HandleTime` entry (Engine.cpp:156-164) with
the bit-faithful double modulus `timeRhsF`: when `rhs > 0` the listener fires iff
`frame_counter % rhs == 0` (C++ `%` on `int` is `Int.tmod`); otherwise it fires
unconditionally. -/
def timeListenerFiresF (fps frame_counter delay : Int) : Bool :=
  let rhs := timeRhsF fps delay
  if 0 < rhs then Int.tmod frame_counter rhs == 0 else true

/-- Embedding of `Engine::HandleTime` (Engine.cpp:152-166) with bit-faithful
double arithmetic: iterates over the `time_listeners` map entries and returns, in
iteration order, the entries whose listener is invoked for a time event carrying
`fps` (`user.data1`) and `frame_counter` (`user.data2`). -/
def HandleTimeF (listeners : List (Int × Nat)) (fps frame_counter : Int) : List (Int × Nat) :=
  listeners.filter fun entry => timeListenerFiresF fps frame_counter entry.1

/-- Insertion into a `std::map<int, event_listener>` as performed by
`Engine::AddTimeListener` (Engine.cpp:55-57): `time_listeners[delay] = listener;`
replaces the value at an existing key, and otherwise inserts the entry at its
key-ordered position. -/
def mapInsert (m : List (Int × Nat)) (k : Int) (v : Nat) : List (Int × Nat) :=
  match m with
  | [] => [(k, v)]
  | e :: rest =>
      if k = e.1 then (k, v) :: rest
      else if k < e.1 then (k, v) :: e :: rest
      else e :: mapInsert rest k v

/-- One step of the `Engine::Run` loop body (Engine.cpp:24-32), as recorded in an
execution trace; `delay ms` records the duration requested from `SDL_Delay`. -/
inductive Step where
  | captureStart
  | pollEvents
  | drawSprites
  | incrementFrame
  | detectCollision
  | emitTimeEvent
  | delay (ms : Int)
  | captureStop
  | setTimeElapsed
deriving DecidableEq

/-- Which listener callbacks reached from one loop iteration call `Engine::Quit`:
callbacks run inside `PollEvent` (event listeners, time listeners, and the
`SDL_QUIT` branch of `DelegateEvent`) and inside `DetectCollision` (the collision
listener). -/
structure IterBehavior where
  quitDuringPoll : Bool
  quitDuringCollision : Bool
deriving DecidableEq

/-- The loop-relevant `Engine` state: the `is_running` flag, the configured `fps`,
the `frame_counter`, and the recorded trace of executed steps. -/
structure LoopState where
  is_running : Bool
  fps : Int
  frame_counter : Int
  log : List Step
deriving DecidableEq

/-- Embedding of `Engine::Quit` (Engine.cpp:82-84): sets the flag that controls the main event
loop to false, and nothing else. -/
def Quit (s : LoopState) : LoopState := { s with is_running := false }

/-- Appends an executed step to the trace. -/
def logStep (st : Step) (s : LoopState) : LoopState := { s with log := s.log ++ [st] }

/-- Model of `Engine::PollEvent()` as called from `Run` (Engine.cpp:25): drains and
delegates all pending events; `quitCb` records whether some callback reached from
the dispatch calls `Quit`. -/
def PollEventStep (quitCb : Bool) (s : LoopState) : LoopState :=
  let s := logStep .pollEvents s
  if quitCb then Quit s else s

/-- Model of `Engine::DetectCollision()` as called from `Run` (Engine.cpp:28); `quitCb`
records whether the collision listener calls `Quit`. -/
def DetectCollisionStep (quitCb : Bool) (s : LoopState) : LoopState :=
  let s := logStep .detectCollision s
  if quitCb then Quit s else s

/-- The body of the `while (is_running)` loop of `Engine::Run` (Engine.cpp:24-32),
in source order: timestamp, `PollEvent()`, `window->DrawSprites(time_elapsed)`,
`frame_counter++`, `DetectCollision()`, `EmitTimeEvent()`, `SDL_Delay(1000 / fps)`
(C++ `int` division is `Int.tdiv`), timestamp, `SetTimeElapsed`. The running flag
is never consulted inside the body. -/
def RunBody (b : IterBehavior) (s : LoopState) : LoopState :=
  let s := logStep .captureStart s
  let s := PollEventStep b.quitDuringPoll s
  let s := logStep .drawSprites s
  let s := logStep .incrementFrame { s with frame_counter := s.frame_counter + 1 }
  let s := DetectCollisionStep b.quitDuringCollision s
  let s := logStep .emitTimeEvent s
  let s := logStep (.delay (Int.tdiv 1000 s.fps)) s
  let s := logStep .captureStop s
  logStep .setTimeElapsed s

/-- The `while (is_running)` loop of `Engine::Run` (Engine.cpp:23-33) observed for
finitely many iterations; the flag is checked only at the top of the loop.
`bs` lists the callback behavior of the successive iterations. -/
def RunLoop (bs : List IterBehavior) (s : LoopState) : LoopState :=
  match bs with
  | [] => s
  | b :: rest => if s.is_running then RunLoop rest (RunBody b s) else s

/-- The nine steps of one full loop iteration, in source order. -/
def iterationSteps (fps : Int) : List Step :=
  [.captureStart, .pollEvents, .drawSprites, .incrementFrame, .detectCollision,
    .emitTimeEvent, .delay (Int.tdiv 1000 fps), .captureStop, .setTimeElapsed]

/-- Projects the requested sleep duration out of a trace step. -/
def stepDelayMs : Step → Option Int
  | .delay ms => some ms
  | _ => none

/-- SDL event type codes used by `Engine::DelegateEvent` (values from SDL2). -/
def SDL_QUIT : Nat := 256

def SDL_KEYDOWN : Nat := 768

def SDL_MOUSEMOTION : Nat := 1024

def SDL_MOUSEBUTTONDOWN : Nat := 1025

def SDL_MOUSEBUTTONUP : Nat := 1026

def SDL_MOUSEWHEEL : Nat := 1027

/-- The parts of `SDL_Event` that `Engine::DelegateEvent` and its handlers read:
the type code, `key.keysym.sym`, and the two `user.data` payload ints of a time
event (the engine fps and frame counter). -/
structure SDLEvent where
  type : Nat
  key : Int
  data1 : Int
  data2 : Int
deriving DecidableEq

/-- The engine state that event dispatch touches, with invocation and propagation
logs. Listeners and sprites are identified by `Nat` tokens. -/
structure DispatchState where
  time_event_type : Nat
  event_listeners : List (Int × Nat)
  time_listeners : List (Int × Nat)
  sprites : List Nat
  is_running : Bool
  invokedEvent : List Nat
  invokedTime : List (Int × Nat)
  propagated : List (Nat × SDLEvent)
deriving DecidableEq

/-- Embedding of `Engine::HandleEvent` (Engine.cpp:137-145): invokes every event listener whose
key equals the event type (mouse events) or the pressed key code (key events). -/
def HandleEvent (e : SDLEvent) (mouse_event : Bool) (s : DispatchState) : DispatchState :=
  { s with invokedEvent := s.invokedEvent ++
      ((s.event_listeners.filter fun entry =>
        if mouse_event then entry.1 == (e.type : Int) else entry.1 == e.key).map Prod.snd) }

/-- Model of `Engine::HandleTime` as reached from `DelegateEvent` (Engine.cpp:128): logs the
time-listener entries fired for the event payload. -/
def HandleTimeDispatch (e : SDLEvent) (s : DispatchState) : DispatchState :=
  { s with invokedTime := s.invokedTime ++ HandleTime s.time_listeners e.data1 e.data2 }

/-- Model of `Engine::Quit` as reached from `DelegateEvent` (Engine.cpp:130). -/
def QuitDispatch (s : DispatchState) : DispatchState := { s with is_running := false }

/-- Model of `Level::PropagateEventToSprites` (Level.cpp:53-57) as reached from
`DelegateEvent` with handlers that do not mutate the level: delegates the event to
each sprite of the level, in order. -/
def LevelPropagate (e : SDLEvent) (s : DispatchState) : DispatchState :=
  { s with propagated := s.propagated ++ (s.sprites.map fun sp => (sp, e)) }

/-- Embedding of `Engine::DelegateEvent` (Engine.cpp:122-133): the if/else chain routes the
event by type (mouse classes, key down, the registered time event type, quit), and
then — outside the chain — always calls
`current_level->PropagateEventToSprites(event)`. -/
def DelegateEvent (e : SDLEvent) (s : DispatchState) : DispatchState :=
  let s :=
    if e.type = SDL_MOUSEMOTION ∨ e.type = SDL_MOUSEBUTTONDOWN ∨
        e.type = SDL_MOUSEBUTTONUP ∨ e.type = SDL_MOUSEWHEEL then
      HandleEvent e true s
    else if e.type = SDL_KEYDOWN then
      HandleEvent e false s
    else if e.type = s.time_event_type then
      HandleTimeDispatch e s
    else if e.type = SDL_QUIT then
      QuitDispatch s
    else s
  LevelPropagate e s

/-- Embedding of `Level::RemoveSprite` (Level.cpp:21-28): `delete sprite;` then a scan that
erases matching entries; the index `i` still increments after an
`erase(begin + i)`, so the element shifted into position `i` is skipped.
Sprites are identified by `Nat` tokens. -/
def RemoveSprite (sp : Nat) : List Nat → List Nat
  | [] => []
  | x :: rest =>
      if x = sp then
        match rest with
        | [] => []
        | y :: rest2 => y :: RemoveSprite sp rest2
      else x :: RemoveSprite sp rest

/-- Embedding of `Level::PropagateEventToSprites` (Level.cpp:53-57) when sprite event handlers
may call `RemoveSprite` on the same level. The C++ ranged-for iterates the member
vector `sprites` itself — unlike `DetectCollision`, no `GetSprites()` copy is
taken — and `vector::erase` invalidates the iterators the loop holds, after which
the next iterator operation is undefined behavior, modelled by `none`.
`handler sp` lists the sprites that the listeners of `sp` remove when delegated
the event. On a defined run the result is the delivery list and final vector. -/
def propagateAux (handler : Nat → List Nat) :
    Nat → List Nat → Nat → List Nat → Option (List Nat × List Nat)
  | 0, vec, _, delivered => some (delivered, vec)
  | fuel + 1, vec, i, delivered =>
      if h : i < vec.length then
        let sp := vec.get ⟨i, h⟩
        let vec2 := (handler sp).foldl (fun v r => RemoveSprite r v) vec
        if vec2 = vec then propagateAux handler fuel vec2 (i + 1) (delivered ++ [sp])
        else none
      else some (delivered, vec)

/-- Entry point of the propagation model: fuel `sprites.length` bounds the
iteration count (the vector never grows during propagation). -/
def PropagateEventToSprites (handler : Nat → List Nat) (sprites : List Nat) :
    Option (List Nat × List Nat) :=
  propagateAux handler sprites.length sprites 0 []

/-- The value `(Uint32)-1`, the failure reply of `SDL_RegisterEvents`. -/
def UINT32_MAX : Nat := 4294967295

/-- The engine state that `Engine::EmitTimeEvent` touches: the process-wide static
`Uint32 Engine::time_event_type` (zero-initialized, so `0` is the unset value),
the fps and frame counter it points the event payload at, plus instrumentation:
`registrations` counts the `SDL_RegisterEvents(1)` calls and `pushed` logs the
`SDL_PushEvent` calls with their `(type, fps, frame_counter)` payload. -/
structure EmitState where
  time_event_type : Nat
  fps : Int
  frame_counter : Int
  registrations : Nat
  pushed : List (Nat × Int × Int)
deriving DecidableEq

/-- Embedding of `Engine::EmitTimeEvent` (Engine.cpp:90-103). `reg` is the value that
`SDL_RegisterEvents(1)` returns if it is called during this invocation: an
allocated type id (never 0) or `UINT32_MAX` when the platform cannot allocate
one. The event is pushed only while `time_event_type != (Uint32)-1`. -/
def EmitTimeEvent (reg : Nat) (s : EmitState) : EmitState :=
  let s :=
    if s.time_event_type = 0 then
      { s with time_event_type := reg, registrations := s.registrations + 1 }
    else s
  if s.time_event_type ≠ UINT32_MAX then
    { s with pushed := s.pushed ++ [(s.time_event_type, s.fps, s.frame_counter)] }
  else s

/-- A sequence of `EmitTimeEvent` calls (one per loop iteration), `regs` giving
the platform reply each call would receive. -/
def EmitCalls (regs : List Nat) (s : EmitState) : EmitState :=
  regs.foldl (fun s r => EmitTimeEvent r s) s

/-- Embedding of `Engine::DetectCollision` (Engine.cpp:109-119) with a collision listener that
may mutate the level (add or remove sprites); the level content is threaded
through the listener. Each `for` loop ranges over the value returned by
`current_level->GetSprites()` — a copy fixed when the loop's range expression is
evaluated, i.e. when that traversal begins. Returns the final level content and
the listener invocation trace. -/
def DetectCollisionMut (listener : Sprite → Sprite → List Sprite → List Sprite)
    (lvl : List Sprite) : List Sprite × List (Sprite × Sprite) :=
  (GetSprites lvl).foldl
    (fun acc a =>
      (GetSprites acc.1).foldl
        (fun acc2 b =>
          if (decide (a ≠ b) && Contains a b) = true then
            (listener a b acc2.1, acc2.2 ++ [(a, b)])
          else acc2)
        acc)
    (lvl, [])

/-- The claim's reading of one inner traversal: it iterates over the snapshot
taken when the traversal began, while listener mutations only affect the level
state threaded onwards. -/
def innerPassSnapshot (listener : Sprite → Sprite → List Sprite → List Sprite)
    (a : Sprite) : List Sprite → List Sprite → List Sprite × List (Sprite × Sprite)
  | [], lvl => (lvl, [])
  | b :: rest, lvl =>
      if (decide (a ≠ b) && Contains a b) = true then
        let res := innerPassSnapshot listener a rest (listener a b lvl)
        (res.1, (a, b) :: res.2)
      else innerPassSnapshot listener a rest lvl

/-- The claim's reading of the outer traversal: it iterates over the snapshot
taken when the pass began; each inner traversal starts from the level state left
by the previous one and snapshots it. -/
def outerPassSnapshot (listener : Sprite → Sprite → List Sprite → List Sprite) :
    List Sprite → List Sprite → List Sprite × List (Sprite × Sprite)
  | [], lvl => (lvl, [])
  | a :: rest, lvl =>
      let resInner := innerPassSnapshot listener a lvl lvl
      let resOuter := outerPassSnapshot listener rest resInner.1
      (resOuter.1, resInner.2 ++ resOuter.2)

/-- The collision pass as the claim describes it: every traversal ranges over the
snapshot taken when that traversal began. -/
def collisionPassSnapshotSpec (listener : Sprite → Sprite → List Sprite → List Sprite)
    (lvl : List Sprite) : List Sprite × List (Sprite × Sprite) :=
  outerPassSnapshot listener lvl lvl

end GameEngine

namespace GameEngine

theorem contains_symm (a b : Sprite) : Contains a b = Contains b a := by
  simp only [Contains]
  by_cases h1 : a.x < b.x + b.w <;> by_cases h2 : b.x < a.x + a.w <;>
    by_cases h3 : a.y < b.y + b.h <;> by_cases h4 : b.y < a.y + a.h <;>
      simp [h1, h2, h3, h4]

theorem count_pair_map_filter (l2 : List Sprite) (q : Sprite → Bool) (x a b : Sprite) :
    ((l2.filter q).map (Prod.mk x)).count (a, b) =
      if x = a then (if q b = true then l2.count b else 0) else 0 := by
  induction l2 with
  | nil => simp
  | cons y ys ih =>
      by_cases hq : q y = true
      · rw [List.filter_cons_of_pos hq, List.map_cons, List.count_cons, ih, List.count_cons]
        rcases eq_or_ne y b with hyb | hyb
        · subst hyb
          by_cases hxa : x = a <;> simp [hxa, hq, Prod.ext_iff]
        · by_cases hxa : x = a <;> simp [hxa, hyb, hq, Prod.ext_iff]
      · rw [List.filter_cons_of_neg (by simpa using hq), ih, List.count_cons]
        rcases eq_or_ne y b with hyb | hyb
        · subst hyb
          by_cases hxa : x = a <;> simp [hxa, hq]
        · by_cases hxa : x = a <;> simp [hxa, hyb, hq]

theorem count_pair_flatMap (lvl l2 : List Sprite) (p : Sprite → Sprite → Bool) (a b : Sprite) :
    (lvl.flatMap fun x => ((l2.filter (p x)).map (Prod.mk x))).count (a, b) =
      lvl.count a * (if p a b = true then l2.count b else 0) := by
  induction lvl with
  | nil => simp
  | cons x xs ih =>
      rw [List.flatMap_cons, List.count_append, ih, count_pair_map_filter, List.count_cons]
      by_cases hxa : x = a <;> by_cases hpb : p a b = true <;>
        simp [hxa, hpb, Nat.add_mul, Nat.add_comm]

/-- C1: during one collision pass with a collision listener registered, for every
ordered pair `(A, B)` of distinct objects of the active level whose boundaries
overlap, the listener is invoked with `(A, B)` exactly once; it is never invoked for
a pair whose boundaries do not overlap (nor for a non-distinct pair); and both
orderings `(A, B)` and `(B, A)` are reported as separate invocations, with no
de-duplication. -/
theorem DetectCollision_exact_ordered_pairs (lvl : List Sprite) (hnd : lvl.Nodup)
    (a b : Sprite) (ha : a ∈ lvl) (hb : b ∈ lvl) (hab : a ≠ b) :
    ((DetectCollision lvl).count (a, b) = if Contains a b = true then 1 else 0)
    ∧ (∀ p ∈ DetectCollision lvl, p.1 ≠ p.2 ∧ Contains p.1 p.2 = true)
    ∧ (Contains a b = true →
        (a, b) ∈ DetectCollision lvl ∧ (b, a) ∈ DetectCollision lvl) := by
  refine ⟨?_, ?_, ?_⟩
  · rw [DetectCollision, GetSprites, count_pair_flatMap]
    rw [List.count_eq_one_of_mem hnd ha, List.count_eq_one_of_mem hnd hb]
    simp [hab]
  · intro p hp
    obtain ⟨x, _, hx⟩ := List.mem_flatMap.mp hp
    obtain ⟨y, hy, hxy⟩ := List.mem_map.mp hx
    obtain ⟨_, hcond⟩ := List.mem_filter.mp hy
    rw [Bool.and_eq_true, decide_eq_true_eq] at hcond
    subst hxy
    exact hcond
  · intro hc
    constructor
    · exact List.mem_flatMap.mpr ⟨a, ha, List.mem_map.mpr ⟨b,
        List.mem_filter.mpr ⟨hb, by simp [hab, hc]⟩, rfl⟩⟩
    · exact List.mem_flatMap.mpr ⟨b, hb, List.mem_map.mpr ⟨a,
        List.mem_filter.mpr ⟨ha, by simp [Ne.symm hab, ← contains_symm a b, hc]⟩, rfl⟩⟩

/-- Witness for C1: the end-to-end inputs of spec §8 — `A` at `(0,0,10,10)` and `B`
at `(5,5,10,10)` — produce exactly the invocations `(A,B)` and `(B,A)`. -/
theorem DetectCollision_exact_ordered_pairs_witness :
    (DetectCollision [⟨0, 0, 0, 10, 10⟩, ⟨1, 5, 5, 10, 10⟩]).count
        (⟨0, 0, 0, 10, 10⟩, ⟨1, 5, 5, 10, 10⟩) = 1
    ∧ (⟨1, 5, 5, 10, 10⟩, (⟨0, 0, 0, 10, 10⟩ : Sprite)) ∈
        DetectCollision [⟨0, 0, 0, 10, 10⟩, ⟨1, 5, 5, 10, 10⟩] := by
  have h := DetectCollision_exact_ordered_pairs
    [⟨0, 0, 0, 10, 10⟩, ⟨1, 5, 5, 10, 10⟩] (by decide)
    ⟨0, 0, 0, 10, 10⟩ ⟨1, 5, 5, 10, 10⟩ (by decide) (by decide) (by decide)
  refine ⟨?_, (h.2.2 (by decide)).2⟩
  rw [h.1]
  decide

theorem timeRhs_eval (fps delay : Int) : timeRhs fps delay = timeRhsInt fps delay := by
  have hq : (fps : ℚ) / 1000 * delay = ((fps * delay : Int) : ℚ) / ((1000 : ℕ) : ℚ) := by
    push_cast
    ring
  rw [timeRhs, cppRound, hq, timeRhsInt]
  rcases le_or_lt 0 (fps * delay) with hpos | hneg
  · rw [if_pos (div_nonneg (by exact_mod_cast hpos) (by norm_num)), if_pos hpos]
    have h2 : ((fps * delay : Int) : ℚ) / ((1000 : ℕ) : ℚ) + 1 / 2 =
        ((2 * (fps * delay) + 1000 : Int) : ℚ) / ((2000 : ℕ) : ℚ) := by
      push_cast
      ring
    rw [h2, Rat.floor_intCast_div_natCast]
    norm_num
  · rw [if_neg (not_le.mpr (div_neg_of_neg_of_pos (by exact_mod_cast hneg) (by norm_num))),
      if_neg (not_le.mpr hneg)]
    have h2 : ((fps * delay : Int) : ℚ) / ((1000 : ℕ) : ℚ) - 1 / 2 =
        -(((2 * -(fps * delay) + 1000 : Int) : ℚ) / ((2000 : ℕ) : ℚ)) := by
      push_cast
      ring
    rw [h2, Int.ceil_neg, Rat.floor_intCast_div_natCast]
    norm_num

theorem timeListenerFires_eval (f i d : Int) :
    timeListenerFires f i d =
      if 0 < timeRhsInt f d then Int.tmod i (timeRhsInt f d) == 0 else true := by
  simp only [timeListenerFires, timeRhs_eval]

set_option maxRecDepth 40000 in
/-- C2 counterexample: at fps 9 and delay 1500 the exact product `(9/1000)·1500`
is `13.5`, so the claim's modulus `round((f/1000)*d)` is `14` (under half-away or
half-even rounding alike) and the claim forbids firing at frame 13
(`13 mod 14 ≠ 0`); but the program computes `9 / 1000.0 = 0.009000000000000001…`
and then `… * 1500 = 13.499999999999998` in IEEE double, `round` gives `13`, and
the listener does fire at frame 13 (`13 mod 13 = 0`). -/
theorem HandleTime_firing_rule_counterexample :
    ((1500 : Int), (5 : Nat)) ∈ HandleTimeF [(1500, 5)] 9 13
    ∧ timeRhsF 9 1500 = 13
    ∧ timeRhs 9 1500 = 14
    ∧ 0 < timeRhs 9 1500
    ∧ ¬((13 : Int) % timeRhs 9 1500 = 0) := by
  refine ⟨by decide, by decide, ?_, ?_, ?_⟩ <;> rw [timeRhs_eval] <;> decide

/-- C2 (amended): for a time listener registered at delay `d`, on processing a
time event carrying fps `f` and frame counter `i`, the listener fires iff
`i mod rhs = 0` where `rhs` is the value the program computes —
`(int)(round(((f / 1000.0) * d)))` in IEEE double arithmetic, which can differ by
one from the exact `round((f/1000)*d)` — when `rhs > 0`, and fires unconditionally
(every frame) when `rhs = 0`. Stated for inputs whose rounded value lies in the
`int` range, where the final cast is exact. -/
theorem HandleTime_firing_rule_double (listeners : List (Int × Nat)) (d : Int)
    (L : Nat) (f i : Int) (hmem : (d, L) ∈ listeners)
    (_hfit : timeRhsF f d ≤ 2147483647) (_hfit2 : -2147483648 ≤ timeRhsF f d) :
    (0 < timeRhsF f d →
      ((d, L) ∈ HandleTimeF listeners f i ↔ i % timeRhsF f d = 0))
    ∧ (timeRhsF f d = 0 → (d, L) ∈ HandleTimeF listeners f i) := by
  constructor
  · intro hpos
    rw [HandleTimeF, List.mem_filter]
    simp only [hmem, true_and, timeListenerFiresF, if_pos hpos, beq_iff_eq]
    constructor
    · intro h
      exact Int.emod_eq_zero_of_dvd (Int.dvd_of_tmod_eq_zero h)
    · intro h
      exact Int.tmod_eq_zero_of_dvd (Int.dvd_of_emod_eq_zero h)
  · intro hzero
    rw [HandleTimeF, List.mem_filter]
    refine ⟨hmem, ?_⟩
    simp [timeListenerFiresF, hzero]

set_option maxRecDepth 40000 in
/-- Witness for the amended C2: with fps 60 and delay 1000 ms the double-computed
period is 60 frames (here the double and exact values agree), and the listener
fires on frame 120. -/
theorem HandleTime_firing_rule_double_witness :
    ((1000 : Int), (5 : Nat)) ∈ HandleTimeF [(1000, 5)] 60 120 := by
  have h := HandleTime_firing_rule_double [(1000, 5)] 1000 5 60 120 (by decide)
    (by decide) (by decide)
  exact (h.1 (by decide)).mpr (by decide)

theorem mapInsert_insert_same (m : List (Int × Nat)) (k : Int) (v1 v2 : Nat) :
    mapInsert (mapInsert m k v1) k v2 = mapInsert m k v2 := by
  induction m with
  | nil => simp [mapInsert]
  | cons e rest ih =>
      by_cases h1 : k = e.1
      · simp [mapInsert, h1]
      · by_cases h2 : k < e.1
        · simp [mapInsert, h1, h2]
        · simp [mapInsert, h1, h2, ih]

theorem mem_mapInsert_self (m : List (Int × Nat)) (k : Int) (v : Nat) :
    (k, v) ∈ mapInsert m k v := by
  induction m with
  | nil => simp [mapInsert]
  | cons e rest ih =>
      by_cases h1 : k = e.1
      · simp [mapInsert, h1]
      · by_cases h2 : k < e.1
        · simp [mapInsert, h1, h2]
        · simp [mapInsert, h1, h2, ih]

theorem mem_mapInsert_elim (m : List (Int × Nat)) (k : Int) (v : Nat)
    (x : Int × Nat) (hx : x ∈ mapInsert m k v) : x = (k, v) ∨ x ∈ m := by
  induction m with
  | nil => simpa [mapInsert] using hx
  | cons e rest ih =>
      by_cases h1 : k = e.1
      · rw [mapInsert, if_pos h1] at hx
        rcases List.mem_cons.mp hx with h | h
        · exact Or.inl h
        · exact Or.inr (List.mem_cons_of_mem _ h)
      · by_cases h2 : k < e.1
        · rw [mapInsert, if_neg h1, if_pos h2] at hx
          rcases List.mem_cons.mp hx with h | h
          · exact Or.inl h
          · exact Or.inr h
        · rw [mapInsert, if_neg h1, if_neg h2] at hx
          rcases List.mem_cons.mp hx with h | h
          · exact Or.inr (h ▸ List.mem_cons_self _ _)
          · rcases ih h with h3 | h3
            · exact Or.inl h3
            · exact Or.inr (List.mem_cons_of_mem _ h3)

theorem lookup_mapInsert_ne (m : List (Int × Nat)) (k : Int) (v : Nat)
    (j : Int) (hj : j ≠ k) : List.lookup j (mapInsert m k v) = List.lookup j m := by
  induction m with
  | nil => simp [mapInsert, List.lookup, beq_eq_false_iff_ne.mpr hj]
  | cons e rest ih =>
      by_cases h1 : k = e.1
      · rw [mapInsert, if_pos h1]
        cases e with
        | mk ek ev =>
            simp only at h1
            rw [← h1]
            simp [List.lookup, beq_eq_false_iff_ne.mpr hj]
      · by_cases h2 : k < e.1
        · rw [mapInsert, if_neg h1, if_pos h2]
          simp [List.lookup, beq_eq_false_iff_ne.mpr hj]
        · rw [mapInsert, if_neg h1, if_neg h2]
          cases e with
          | mk ek ev => simp [List.lookup, ih]

/-- C3: two successive `AddTimeListener` registrations at the same delay `d`
replace the first listener with the second — on any time event, `L1` is never
invoked, `L2` is invoked exactly when the firing condition for `d` holds — and
entries registered at other delays are unaffected. -/
theorem AddTimeListener_same_delay_replaces (m : List (Int × Nat)) (d : Int)
    (L1 L2 : Nat) (f i : Int)
    (h1 : L1 ∉ m.map Prod.snd) (h12 : L1 ≠ L2) (h2 : L2 ∉ m.map Prod.snd) :
    (L1 ∉ (HandleTime (mapInsert (mapInsert m d L1) d L2) f i).map Prod.snd)
    ∧ (L2 ∈ (HandleTime (mapInsert (mapInsert m d L1) d L2) f i).map Prod.snd ↔
        timeListenerFires f i d = true)
    ∧ (∀ k, k ≠ d →
        List.lookup k (mapInsert (mapInsert m d L1) d L2) = List.lookup k m) := by
  rw [mapInsert_insert_same]
  refine ⟨?_, ⟨?_, ?_⟩, ?_⟩
  · intro hmem
    obtain ⟨⟨dk, Lk⟩, hin, hsnd⟩ := List.mem_map.mp hmem
    simp only at hsnd
    have hin2 := (List.mem_filter.mp hin).1
    rcases mem_mapInsert_elim _ _ _ _ hin2 with heq | hm
    · exact h12 (hsnd.symm.trans (congrArg Prod.snd heq))
    · exact h1 (hsnd ▸ List.mem_map.mpr ⟨(dk, Lk), hm, rfl⟩)
  · intro hmem
    obtain ⟨⟨dk, Lk⟩, hin, hsnd⟩ := List.mem_map.mp hmem
    simp only at hsnd
    obtain ⟨hin2, hfire⟩ := List.mem_filter.mp hin
    rcases mem_mapInsert_elim _ _ _ _ hin2 with heq | hm
    · rwa [show dk = d from congrArg Prod.fst heq] at hfire
    · exact absurd (hsnd ▸ List.mem_map.mpr ⟨(dk, Lk), hm, rfl⟩) h2
  · intro hfire
    exact List.mem_map.mpr ⟨(d, L2),
      List.mem_filter.mpr ⟨mem_mapInsert_self _ _ _, hfire⟩, rfl⟩
  · intro k hk
    exact lookup_mapInsert_ne _ _ _ _ hk

/-- Witness for C3: registering listener 1 then listener 2 at delay 1000 over the
map `[(500, 7)]`, at fps 60 and frame 0, invokes 2 but never 1, and leaves the
entry at delay 500 untouched. -/
theorem AddTimeListener_same_delay_replaces_witness :
    ((1 : Nat) ∉ (HandleTime (mapInsert (mapInsert [(500, 7)] 1000 1) 1000 2)
        60 0).map Prod.snd)
    ∧ ((2 : Nat) ∈ (HandleTime (mapInsert (mapInsert [(500, 7)] 1000 1) 1000 2)
        60 0).map Prod.snd)
    ∧ List.lookup (500 : Int) (mapInsert (mapInsert [(500, 7)] 1000 1) 1000 2) =
        some 7 := by
  have h := AddTimeListener_same_delay_replaces [(500, 7)] 1000 1 2 60 0
    (by decide) (by decide) (by decide)
  refine ⟨h.1, h.2.1.mpr ?_, by rw [h.2.2 500 (by decide)]; rfl⟩
  rw [timeListenerFires_eval]
  decide

theorem RunBody_effects (b : IterBehavior) (s : LoopState) :
    (RunBody b s).log = s.log ++ iterationSteps s.fps
    ∧ (RunBody b s).fps = s.fps
    ∧ (RunBody b s).frame_counter = s.frame_counter + 1
    ∧ (RunBody b s).is_running =
        (s.is_running && !(b.quitDuringPoll || b.quitDuringCollision)) := by
  cases hp : b.quitDuringPoll <;> cases hc : b.quitDuringCollision <;>
    simp [RunBody, PollEventStep, DetectCollisionStep, logStep, Quit,
      iterationSteps, hp, hc]

theorem RunLoop_not_running (bs : List IterBehavior) (s : LoopState)
    (h : s.is_running = false) : RunLoop bs s = s := by
  cases bs with
  | nil => rfl
  | cons b rest => rw [RunLoop, if_neg (by rw [h]; exact Bool.false_ne_true)]

/-- C5: every iteration of `Run` performs exactly these steps in this order:
capture start timestamp, poll and dispatch all pending events, request a redraw,
increment the frame counter by exactly one, run the collision pass, emit one time
event, sleep, capture end timestamp, update `time_elapsed` — regardless of what
the callbacks of the iteration do. -/
theorem Run_iteration_steps_in_order (b : IterBehavior) (s : LoopState) :
    (RunBody b s).log = s.log ++
      [Step.captureStart, Step.pollEvents, Step.drawSprites, Step.incrementFrame,
        Step.detectCollision, Step.emitTimeEvent, Step.delay (Int.tdiv 1000 s.fps),
        Step.captureStop, Step.setTimeElapsed]
    ∧ (RunBody b s).frame_counter = s.frame_counter + 1 :=
  ⟨(RunBody_effects b s).1, (RunBody_effects b s).2.2.1⟩

/-- C4: if `Quit()` is called during iteration `N` of the loop (from any listener
callback, during the poll dispatch or during the collision pass), iteration `N`
still completes in full — its nine steps all appear in the trace — and iteration
`N+1` never starts: the loop exits at the top-of-loop check of the flag,
whatever behaviors follow. -/
theorem Quit_completes_iteration_then_exits (pre : List IterBehavior)
    (b : IterBehavior) (rest : List IterBehavior) (s : LoopState)
    (hrun : s.is_running = true)
    (hpre : ∀ x ∈ pre, x = ⟨false, false⟩)
    (hq : b.quitDuringPoll = true ∨ b.quitDuringCollision = true) :
    (RunLoop (pre ++ b :: rest) s).log =
        s.log ++ (List.replicate (pre.length + 1) (iterationSteps s.fps)).flatten
    ∧ (RunLoop (pre ++ b :: rest) s).is_running = false := by
  induction pre generalizing s with
  | nil =>
      obtain ⟨hlog, hfps, _, hflag⟩ := RunBody_effects b s
      have hstop : (RunBody b s).is_running = false := by
        rw [hflag, hrun]
        rcases hq with h | h <;> simp [h]
      rw [List.nil_append, RunLoop, if_pos hrun, RunLoop_not_running rest _ hstop]
      simp [hlog, hstop]
  | cons x pre ih =>
      have hx : x = ⟨false, false⟩ := hpre x (List.mem_cons_self x pre)
      obtain ⟨hlog, hfps, _, hflag⟩ := RunBody_effects x s
      have hrun2 : (RunBody x s).is_running = true := by
        rw [hflag, hrun, hx]
        rfl
      have ih2 := ih (RunBody x s) hrun2 (fun y hy => hpre y (List.mem_cons_of_mem x hy))
      rw [List.cons_append, RunLoop, if_pos hrun]
      rw [ih2.1, ih2.2, hlog, hfps]
      refine ⟨?_, rfl⟩
      rw [List.length_cons, List.replicate_succ (n := pre.length + 1),
        List.flatten_cons, List.append_assoc]

/-- Witness for C4: a single iteration whose poll dispatch calls `Quit` completes
all nine steps and leaves the loop stopped. -/
theorem Quit_completes_iteration_then_exits_witness :
    (RunLoop [⟨true, false⟩] ⟨true, 60, 0, []⟩).log =
        (List.replicate 1 (iterationSteps 60)).flatten
    ∧ (RunLoop [⟨true, false⟩] ⟨true, 60, 0, []⟩).is_running = false := by
  have h := Quit_completes_iteration_then_exits [] ⟨true, false⟩ [] ⟨true, 60, 0, []⟩
    rfl (by simp) (Or.inl rfl)
  exact ⟨by simpa using h.1, h.2⟩

/-- C6: in every iteration, the requested sleep duration is exactly `1000 / fps`
milliseconds, for every positive `fps`, independent of the iteration's state and
of what its callbacks did (no catch-up or frame-skip adjustment). -/
theorem Run_sleep_duration_fixed (b : IterBehavior) (s : LoopState)
    (hfps : 0 < s.fps) :
    (RunBody b s).log.filterMap stepDelayMs =
        s.log.filterMap stepDelayMs ++ [1000 / s.fps] := by
  have hdiv : Int.tdiv 1000 s.fps = 1000 / s.fps := by
    rw [Int.tdiv_eq_ediv (by norm_num) (Int.le_of_lt hfps)]
  rw [(RunBody_effects b s).1, List.filterMap_append, iterationSteps, hdiv]
  rfl

/-- Witness for C6: at fps 60 the single sleep recorded by an iteration is
`1000 / 60 = 16` milliseconds. -/
theorem Run_sleep_duration_fixed_witness :
    (RunBody ⟨false, true⟩ ⟨true, 60, 7, []⟩).log.filterMap stepDelayMs = [16] := by
  have h := Run_sleep_duration_fixed ⟨false, true⟩ ⟨true, 60, 7, []⟩ (by decide)
  rw [h]
  decide

/-- C7: for every event dispatched through `DelegateEvent` — whatever its type and
whichever routing branch runs — the event is afterwards propagated to the active
level, which forwards it to every contained sprite in order; and no branch changes
the sprite sequence it is delivered to. -/
theorem DelegateEvent_always_propagates_to_level (e : SDLEvent) (s : DispatchState) :
    (DelegateEvent e s).propagated = s.propagated ++ (s.sprites.map fun sp => (sp, e))
    ∧ (DelegateEvent e s).sprites = s.sprites := by
  simp only [DelegateEvent, LevelPropagate, HandleEvent, HandleTimeDispatch, QuitDispatch]
  split_ifs <;> exact ⟨rfl, rfl⟩

/-- Sanity check of the propagation model: when no handler removes anything, the
event is delivered to every sprite in order and the vector is unchanged. -/
theorem propagate_no_removal_delivers_all :
    PropagateEventToSprites (fun _ => []) [0, 1, 2] = some ([0, 1, 2], [0, 1, 2]) := by
  decide

/-- C8 (evaluation at the failing input): a level holding sprites `0` and `1`
where the handlers of sprite `0` call `RemoveSprite` for sprite `1` during
propagation — the erase invalidates the iterators of the in-progress ranged-for,
so the propagation run is undefined behavior (`none`), contradicting the claim
that propagation must not crash. -/
theorem PropagateEventToSprites_remove_during_propagation_ub :
    PropagateEventToSprites (fun sp => if sp = 0 then [1] else []) [0, 1] = none := by
  decide

theorem EmitTimeEvent_registrations (r : Nat) (s : EmitState) :
    (EmitTimeEvent r s).registrations =
      s.registrations + (if s.time_event_type = 0 then 1 else 0) := by
  by_cases h : s.time_event_type = 0 <;>
    simp only [EmitTimeEvent, h, ite_true, ite_false] <;> split <;> simp

theorem EmitTimeEvent_type (r : Nat) (s : EmitState) :
    (EmitTimeEvent r s).time_event_type =
      if s.time_event_type = 0 then r else s.time_event_type := by
  by_cases h : s.time_event_type = 0 <;>
    simp only [EmitTimeEvent, h, ite_true, ite_false] <;> split <;> simp

theorem EmitTimeEvent_stuck (r : Nat) (s : EmitState)
    (h : s.time_event_type = UINT32_MAX) : EmitTimeEvent r s = s := by
  have h0 : ¬s.time_event_type = 0 := by
    rw [h]
    decide
  simp [EmitTimeEvent, h, UINT32_MAX]

/-- C9: `EmitTimeEvent` calls `SDL_RegisterEvents` at most once per process — only
while the stored static type id is still the unset value `0` — and once the stored
id is the failure value `(Uint32)-1`, every subsequent call silently skips pushing
the event and leaves the whole engine state unchanged. -/
theorem EmitTimeEvent_registers_once_and_degrades_silently (regs : List Nat)
    (s : EmitState) (hr : ∀ r ∈ regs, r ≠ 0) :
    ((EmitCalls regs s).registrations ≤
        s.registrations + (if s.time_event_type = 0 then 1 else 0))
    ∧ (s.time_event_type ≠ 0 → (EmitCalls regs s).registrations = s.registrations)
    ∧ (s.time_event_type = UINT32_MAX → EmitCalls regs s = s) := by
  induction regs generalizing s with
  | nil => exact ⟨Nat.le_add_right _ _, fun _ => rfl, fun _ => rfl⟩
  | cons r rs ih =>
      have hr0 : r ≠ 0 := hr r (List.mem_cons_self r rs)
      have hrs : ∀ x ∈ rs, x ≠ 0 := fun x hx => hr x (List.mem_cons_of_mem r hx)
      have hstep : EmitCalls (r :: rs) s = EmitCalls rs (EmitTimeEvent r s) := rfl
      refine ⟨?_, ?_, ?_⟩
      · rw [hstep]
        by_cases h0 : s.time_event_type = 0
        · have hne : (EmitTimeEvent r s).time_event_type ≠ 0 := by
            rw [EmitTimeEvent_type, if_pos h0]
            exact hr0
          rw [(ih (EmitTimeEvent r s) hrs).2.1 hne, EmitTimeEvent_registrations]
        · have hne : (EmitTimeEvent r s).time_event_type ≠ 0 := by
            rw [EmitTimeEvent_type, if_neg h0]
            exact h0
          rw [(ih (EmitTimeEvent r s) hrs).2.1 hne, EmitTimeEvent_registrations]
      · intro h0
        rw [hstep]
        have hne : (EmitTimeEvent r s).time_event_type ≠ 0 := by
          rw [EmitTimeEvent_type, if_neg h0]
          exact h0
        rw [(ih (EmitTimeEvent r s) hrs).2.1 hne, EmitTimeEvent_registrations,
          if_neg h0]
        exact Nat.add_zero _
      · intro hmax
        rw [hstep, EmitTimeEvent_stuck r s hmax]
        exact (ih s hrs).2.2 hmax

/-- Witness for C9: once the stored type id is the failure value, a further
`EmitTimeEvent` call performs no registration and pushes nothing — the state is
exactly unchanged. -/
theorem EmitTimeEvent_registers_once_and_degrades_silently_witness :
    (EmitCalls [32768] ⟨UINT32_MAX, 60, 3, 1, []⟩).registrations = 1
    ∧ EmitCalls [32768] ⟨UINT32_MAX, 60, 3, 1, []⟩ = ⟨UINT32_MAX, 60, 3, 1, []⟩ := by
  have h := EmitTimeEvent_registers_once_and_degrades_silently [32768]
    ⟨UINT32_MAX, 60, 3, 1, []⟩ (by decide)
  exact ⟨h.2.1 (by decide), h.2.2 rfl⟩

theorem innerPass_foldl (listener : Sprite → Sprite → List Sprite → List Sprite)
    (a : Sprite) (snapshot : List Sprite) (lvl : List Sprite)
    (tr : List (Sprite × Sprite)) :
    snapshot.foldl
      (fun acc2 b =>
        if (decide (a ≠ b) && Contains a b) = true then
          (listener a b acc2.1, acc2.2 ++ [(a, b)])
        else acc2)
      (lvl, tr)
    = ((innerPassSnapshot listener a snapshot lvl).1,
        tr ++ (innerPassSnapshot listener a snapshot lvl).2) := by
  induction snapshot generalizing lvl tr with
  | nil => simp [innerPassSnapshot]
  | cons b rest ih =>
      by_cases hc : (decide (a ≠ b) && Contains a b) = true
      · simp only [List.foldl_cons, hc, if_true, innerPassSnapshot]
        rw [ih]
        simp
      · simp only [List.foldl_cons, hc, if_false, innerPassSnapshot]
        exact ih lvl tr

theorem outerPass_foldl (listener : Sprite → Sprite → List Sprite → List Sprite)
    (outer lvl : List Sprite) (tr : List (Sprite × Sprite)) :
    outer.foldl
      (fun acc a =>
        (GetSprites acc.1).foldl
          (fun acc2 b =>
            if (decide (a ≠ b) && Contains a b) = true then
              (listener a b acc2.1, acc2.2 ++ [(a, b)])
            else acc2)
          acc)
      (lvl, tr)
    = ((outerPassSnapshot listener outer lvl).1,
        tr ++ (outerPassSnapshot listener outer lvl).2) := by
  induction outer generalizing lvl tr with
  | nil => simp [outerPassSnapshot]
  | cons a rest ih =>
      simp only [List.foldl_cons]
      rw [innerPass_foldl, ih]
      simp [outerPassSnapshot, GetSprites, List.append_assoc]

/-- C10: `Level::GetSprites` returns the vector by value, so each traversal of the
collision pass iterates over a snapshot taken when that traversal began: for any
level-mutating collision listener, the pass behaves exactly as the
snapshot-per-traversal reading — mutations are observed only by traversals
started afterwards, never by the sequences already being iterated. -/
theorem GetSprites_copy_gives_snapshot_semantics
    (listener : Sprite → Sprite → List Sprite → List Sprite) (lvl : List Sprite) :
    DetectCollisionMut listener lvl = collisionPassSnapshotSpec listener lvl := by
  rw [DetectCollisionMut, collisionPassSnapshotSpec]
  rw [show GetSprites lvl = lvl from rfl, outerPass_foldl]
  simp

end GameEngine
